import Mathlib

/-!
# Verification of the twogtp match driver (src/twogtp.py)

Shallow embedding of the parts of `twogtp.py` that the specification's
claims are about:

* the GTP response framing loop (`GTPEngine.read_response_lines`),
* first-line token extraction (`format_response_line`),
* the wire-to-SGF coordinate conversion (`SGF.add_move_from_genmove_return`),
* SGF serialization with the trailing-pass trim (`SGF.join_all_data`),
* the turn-taking game loop (`game_loop`), with engine processes modelled
  as deterministic response functions and command traces.

Python strings are modelled as Lean `String`s restricted to the ASCII
fragment actually exchanged over the GTP wire; fallible Python operations
(list indexing, `int(...)`, `list.index`) are modelled with `Option`,
where `none` stands for the exception propagating.
-/

namespace Twogtp

/-- ASCII whitespace recognised by Python's `str.rstrip()` and the regex
class `\s` (the engines speak ASCII; non-ASCII whitespace is out of scope
of this model). -/
def pyIsSpace (c : Char) : Bool :=
  c = ' ' || c = '\t' || c = '\n' || c = '\r' || c = '\x0b' || c = '\x0c'

/-- Python `s.rstrip()`: remove trailing whitespace. -/
def pyRstrip (s : String) : String :=
  ⟨(s.data.reverse.dropWhile pyIsSpace).reverse⟩

/-- Python `re.sub(r"^[\s=]*", "", s)`: remove the longest leading run of
whitespace and `=` characters. -/
def stripLeadingSpaceEq (s : String) : String :=
  ⟨s.data.dropWhile (fun c => pyIsSpace c || c = '=')⟩

/-- Python `s.lower()` on the ASCII fragment (`Char.toLower` lowercases
exactly the ASCII uppercase letters). -/
def pyLower (s : String) : String := ⟨s.data.map Char.toLower⟩

/-- Python `s.upper()` on the ASCII fragment. -/
def pyUpper (s : String) : String := ⟨s.data.map Char.toUpper⟩

/-- Model of `format_response_line` (twogtp.py line 200): take the first response
line, `rstrip` it, and strip leading whitespace and `=` characters.
`response_lines[0]` raises `IndexError` on an empty list, modelled as
`none`. -/
def format_response_line (response_lines : List String) : Option String :=
  match response_lines with
  | [] => none
  | l :: _ => some (stripLeadingSpaceEq (pyRstrip l))

/-! ## Response framing (`GTPEngine.read_response_lines`, lines 72-87)

The engine's stdout is modelled as the list of lines still to be read;
`readline` at end-of-file returns the empty string forever (a closed pipe
yields `b""` on every further read).  The `while True` loop is given fuel;
`none` means the loop has not terminated within the given fuel.  (On the
host platform `os.linesep = "\n"`, so the `replace(os.linesep, "\n")` in
the source is the identity and is not modelled.) -/

/-- One `readline()` on the modelled stream: the next line, or `""` at
end-of-file (and the stream stays at end-of-file). -/
def readline (input : List String) : String × List String :=
  match input with
  | [] => ("", [])
  | l :: rest => (l, rest)

/-- Python `s.startswith(pre)`: prefix test on the characters. -/
def pyStartsWith (s pre : String) : Bool := pre.data.isPrefixOf s.data

/-- The body of the `while True` loop of `read_response_lines`, with fuel.
Returns `some lines` if the loop breaks within `fuel` iterations. -/
def readLinesLoop : Nat → List String → Bool → List String → Option (List String)
  | 0, _, _, _ => none
  | fuel + 1, input, response_started, lines =>
    let p := readline input
    let line := p.1
    let rest := p.2
    let started := response_started || pyStartsWith line "=" || pyStartsWith line "?"
    let lines1 := if started then lines ++ [line] else lines
    if line = "\n" then some lines1
    else readLinesLoop fuel rest started lines1

/-- Model of `GTPEngine.read_response_lines`: if `proc.stdout` is `None` the
function logs and returns `[]`; otherwise it runs the framing loop.
(The `stdout is None` test sits inside the loop in the source, but the
handle never changes, so hoisting it is equivalent.) -/
def read_response_lines (stdout : Option (List String)) (fuel : Nat) :
    Option (List String) :=
  match stdout with
  | none => some []
  | some input => readLinesLoop fuel input false []

/-- The framing loop terminates on the given stream (for some fuel). -/
def readTerminates (input : List String) : Prop :=
  ∃ fuel, (readLinesLoop fuel input false []).isSome

/-! ## Coordinate conversion (`SGF.add_move_from_genmove_return`, lines 122-131) -/

/-- Python `string.ascii_lowercase`. -/
def ascii_lowercase : List Char := "abcdefghijklmnopqrstuvwxyz".data

/-- Python `string.ascii_lowercase.replace("i", "")[: sz]`: the GTP column
letters, skipping `i`. -/
def genmove_column_labels (sz : Nat) : List Char :=
  (ascii_lowercase.filter (fun c => c ≠ 'i')).take sz

/-- Python `string.ascii_lowercase[: sz]`: the SGF coordinate letters. -/
def move_labels (sz : Nat) : List Char := ascii_lowercase.take sz

/-- Python `list.index`, which raises `ValueError` when absent. -/
def pyListIndex (l : List Char) (c : Char) : Option Nat :=
  if c ∈ l then some (l.indexOf c) else none

/-- Python list subscription `l[i]` with an `Int` index: negative indices
count from the end; out-of-range raises `IndexError` (`none`). -/
def pyGet (l : List Char) (i : Int) : Option Char :=
  if 0 ≤ i then l.get? i.toNat
  else if -(l.length : Int) ≤ i then l.get? ((l.length : Int) + i).toNat
  else none

/-- Numeric value of a decimal digit character. -/
def digitVal (c : Char) : Nat := c.toNat - '0'.toNat

/-- Parse an unsigned run of decimal digits (empty or non-digit input
raises `ValueError`, modelled as `none`). -/
def parse_digits (s : List Char) : Option Nat :=
  if s ≠ [] ∧ s.all Char.isDigit then
    some (s.foldl (fun a c => 10 * a + digitVal c) 0)
  else none

/-- Python `int(r)` restricted to the optionally signed decimal forms the
GTP wire can carry (surrounding whitespace and `_` separators are not
produced by engines and are out of scope of this model). -/
def pyInt (s : List Char) : Option Int :=
  match s with
  | [] => none
  | c :: rest =>
    if c = '+' then (parse_digits rest).map Int.ofNat
    else if c = '-' then (parse_digits rest).map (fun n => -(n : Int))
    else (parse_digits s).map Int.ofNat

/-- Model of `SGF.add_move_from_genmove_return` (coordinate part): convert one GTP
move token to its SGF coordinate text, given the board size `sz`.  A pass
becomes the empty string; otherwise the first character is looked up in
the skip-`i` alphabet and the rest is parsed as the 1-based row number.
`none` models the Python exceptions (`IndexError`, `ValueError`). -/
def add_move_from_genmove_return (sz : Nat) (genmove_return : String) :
    Option String :=
  if genmove_return = "pass" then some ""
  else
    match genmove_return.data with
    | [] => none
    | c :: r =>
      match pyListIndex (genmove_column_labels sz) c with
      | none => none
      | some ci =>
        match pyInt r with
        | none => none
        | some rn =>
          match pyGet (move_labels sz) (ci : Int),
                pyGet (move_labels sz) ((sz : Int) - rn) with
          | some a, some b => some ⟨[a, b]⟩
          | _, _ => none

/-! ## SGF record and serialization (`SGF`, lines 103-168) -/

/-- The `SGF` object's fields.  `km` holds the komi's formatted text (the
source only ever interpolates the float into strings; float formatting
itself is out of scope). -/
structure SGFRec where
  gm : Nat := 1
  ff : Nat := 4
  ca : String := "utf-8"
  sz : Nat := 19
  dt : Option String := none
  pb : Option String := none
  pw : Option String := none
  km : String := "6.5"
  re : Option String := none
  moves : List (String × String) := []

/-- The trailing-pass counter of `join_all_data` (lines 156-161): walk the
move list from the end, counting moves whose SGF text is empty. -/
def end_pass_count (moves : List (String × String)) : Nat :=
  (moves.reverse.takeWhile (fun p => p.2 = "")).length

/-- Lines 162-164: drop the trailing passes when there are at least two
(`moves[:-k]` keeps the first `length - k` entries). -/
def end_passes_removed_moves (moves : List (String × String)) :
    List (String × String) :=
  if 2 ≤ end_pass_count moves then
    moves.take (moves.length - end_pass_count moves)
  else moves

/-- One move's SGF text: `;C[mv]` with the color uppercased (line 166). -/
def sgf_move_text (p : String × String) : String :=
  ";" ++ pyUpper p.1 ++ "[" ++ p.2 ++ "]"

/-- The root node's property text (lines 143-154). -/
def root_gameinfo_joined (s : SGFRec) : String :=
  String.join
    ([";", "GM[" ++ toString s.gm ++ "]", "FF[" ++ toString s.ff ++ "]",
      "CA[" ++ s.ca ++ "]", "SZ[" ++ toString s.sz ++ "]"]
     ++ (match s.dt with | none => [] | some d => ["DT[" ++ d ++ "]"])
     ++ (match s.pb with | none => [] | some b => ["PB[" ++ b ++ "]"])
     ++ (match s.pw with | none => [] | some w => ["PW[" ++ w ++ "]"])
     ++ ["KM[" ++ s.km ++ "]"]
     ++ (match s.re with | none => [] | some r => ["RE[" ++ r ++ "]"]))

/-- Model of `SGF.join_all_data` (lines 142-168): the full serialized record. -/
def join_all_data (s : SGFRec) : String :=
  "(" ++ root_gameinfo_joined s
      ++ String.join ((end_passes_removed_moves s.moves).map sgf_move_text)
      ++ ")\n"

/-! ## The match orchestrator (`game_loop` and helpers, lines 183-282)

The three engine processes are identified by `EngineId`: `e1` and `e2` are
the engines launched from the `--black` and `--white` commands, `ref` is a
separately launched referee (line 216).  An engine's behaviour is a
deterministic function from the commands previously sent to it and the
current command to the framed response lines; `send` models one
`communicate` round-trip and records the command in the engine's trace. -/

inductive EngineId where
  | e1
  | e2
  | ref
deriving DecidableEq

/-- The state of the three engine sessions: fixed behaviours plus the
trace of commands sent so far to each engine. -/
structure World where
  behav : EngineId → List String → String → List String
  tr : EngineId → List String

/-- One `communicate` round-trip: the command is appended to the engine's
trace and the behaviour produces the framed response lines. -/
def send (w : World) (id : EngineId) (cmd : String) : World × List String :=
  ({ w with tr := fun j => if j = id then w.tr id ++ [cmd] else w.tr j },
   w.behav id (w.tr id) cmd)

/-- Model of `send_command_to_engines` (line 183): one command to several engines in
order. -/
def send_command_to_engines (w : World) (cmd : String) (ids : List EngineId) :
    World :=
  ids.foldl (fun w id => (send w id cmd).1) w

/-- Model of `setup_engines` (line 188): `clear_board`, `boardsize`, `komi`, each
sent to all the given engines before the next command. -/
def setup_engines (sz : Nat) (km : String) (w : World) (ids : List EngineId) :
    World :=
  ["clear_board", "boardsize " ++ toString sz, "komi " ++ km].foldl
    (fun w c => send_command_to_engines w c ids) w

/-- Model of `synchronize_engine` (line 194): replay the move history as `play`
commands, skipping passes. -/
def synchronize_engine (w : World) (id : EngineId)
    (move_history : List (String × String)) : World :=
  move_history.foldl
    (fun w p =>
      if p.2 ≠ "pass" then (send w id ("play " ++ p.1 ++ " " ++ p.2)).1 else w)
    w

/-- The `referee` binding (lines 213-216): the referee session is the engine
launched from the black command unless a referee command was configured. -/
def referee_id (hasReferee : Bool) : EngineId :=
  if hasReferee then EngineId.ref else EngineId.e1

/-- The inner `for move_num in range(1, maxmoves + 1)` loop of `game_loop`
(lines 235-265), with the remaining iteration count as fuel.  Returns the
final world, the accumulated `move_history`, and `sgf.re` as set inside
the loop (`none` when the ply budget ran out without a `break`); the outer
`none` models a Python exception propagating out of the loop. -/
def turn_loop (sz : Nat) (km : String) (blackId whiteId refId : EngineId) :
    Nat → Nat → World → List (String × String) → Bool →
    Option (World × List (String × String) × Option String)
  | 0, _, w, move_history, _ => some (w, move_history, none)
  | fuel + 1, move_num, w, move_history, last_move_is_pass =>
    let color := if move_num % 2 = 1 then "b" else "w"
    let now_turn := if move_num % 2 = 1 then blackId else whiteId
    let the_other := if move_num % 2 = 1 then whiteId else blackId
    let gen := send w now_turn ("genmove " ++ color)
    match format_response_line gen.2 with
    | none => none
    | some raw =>
      let move := pyLower raw
      if move = "resign" then
        some (gen.1, move_history, some (if color = "b" then "W+R" else "B+R"))
      else
        let hist1 := move_history ++ [(color, move)]
        if move = "pass" then
          if last_move_is_pass then
            let w2 := setup_engines sz km gen.1 [refId]
            let w3 := synchronize_engine w2 refId hist1
            let fin := send w3 refId "final_score"
            match format_response_line fin.2 with
            | none => none
            | some result => some (fin.1, hist1, some (pyUpper result))
          else
            turn_loop sz km blackId whiteId refId fuel (move_num + 1) gen.1
              hist1 true
        else
          let w2 := (send gen.1 the_other ("play " ++ color ++ " " ++ move)).1
          turn_loop sz km blackId whiteId refId fuel (move_num + 1) w2
            hist1 false

/-- Lines 273-274: feed the move history through
`add_move_from_genmove_return`; any conversion failure propagates. -/
def add_moves_from_history (sz : Nat) (hist : List (String × String)) :
    Option (List (String × String)) :=
  hist.mapM (fun p =>
    (add_move_from_genmove_return sz p.2).map (fun m => (p.1, m)))

/-- One iteration of the outer per-game loop of `game_loop` (lines
226-277): set up both players, run the turn loop, default the result to
`"Void"`, and build the SGF record.  `names` gives each engine's display
name, `dt` the date stamp.  Returns the final world, the SGF record, and
the raw move history; `none` models a propagating exception. -/
def run_game (sz : Nat) (km : String) (maxmoves : Nat)
    (blackId whiteId refId : EngineId) (names : EngineId → String)
    (dt : String) (w : World) :
    Option (World × SGFRec × List (String × String)) :=
  let w0 := setup_engines sz km w [blackId, whiteId]
  match turn_loop sz km blackId whiteId refId maxmoves 1 w0 [] false with
  | none => none
  | some (w1, hist, reOpt) =>
    match add_moves_from_history sz hist with
    | none => none
    | some sgfMoves =>
      some (w1,
        { sz := sz, km := km, dt := some dt,
          pb := some (names blackId), pw := some (names whiteId),
          re := some (reOpt.getD "Void"), moves := sgfMoves },
        hist)

/-- The outer `for game_num in range(1, games + 1)` loop (lines 223-282):
run the given number of games, swapping the black and white engine
bindings after each game when `alternate` is set; the referee binding
never changes.  Returns the final world and the per-game SGF records. -/
def match_loop (sz : Nat) (km : String) (maxmoves : Nat) (refId : EngineId)
    (alternate : Bool) (names : EngineId → String) (dt : String) :
    Nat → EngineId → EngineId → World → Option (World × List SGFRec)
  | 0, _, _, w => some (w, [])
  | g + 1, blackId, whiteId, w =>
    match run_game sz km maxmoves blackId whiteId refId names dt w with
    | none => none
    | some (w1, sgf, _) =>
      let next := if alternate then (whiteId, blackId) else (blackId, whiteId)
      match match_loop sz km maxmoves refId alternate names dt g next.1 next.2
          w1 with
      | none => none
      | some (w2, sgfs) => some (w2, sgf :: sgfs)

/-! ## Stub engine behaviours (test fixtures for the synthetic-game
properties of the specification) -/

/-- A stub engine that answers every command with the single response line
`line` (followed by the empty terminator line). -/
def const_stub (line : String) : EngineId → List String → String → List String :=
  fun _ _ _ => [line, "\n"]

/-- A stub engine that always passes, and answers `final_score` with a
score report. -/
def pass_stub : EngineId → List String → String → List String :=
  fun _ _ cmd =>
    if cmd = "final_score" then ["= B+0.5\n", "\n"] else ["= pass\n", "\n"]

/-- A stub whose output stream produces nothing (an engine that died). -/
def dead_stub : EngineId → List String → String → List String :=
  fun _ _ _ => []

/-- A fresh world: the given behaviours, no commands sent yet. -/
def init_world (B : EngineId → List String → String → List String) : World :=
  ⟨B, fun _ => []⟩

/-- Display names used in the synthetic games. -/
def stub_names : EngineId → String := fun _ => "n"

/-- The move list `turn_loop` accumulates when every `genmove` answer is
the fixed token `t`: one move per remaining ply, the color given by the
ply number's parity. -/
def movesFrom (t : String) : Nat → Nat → List (String × String)
  | 0, _ => []
  | fuel + 1, mn => ((if mn % 2 = 1 then "b" else "w"), t) :: movesFrom t fuel (mn + 1)

/-- The number of `final_score` commands in an engine's trace. -/
def fsCount (w : World) (id : EngineId) : Nat :=
  ((w.tr id).filter (fun c => c = "final_score")).length

/-! ## Helper lemmas -/

theorem data_append (a b : String) : (a ++ b).data = a.data ++ b.data := by
  cases a
  cases b
  rfl

theorem filter_skip_i_length :
    (ascii_lowercase.filter (fun c => c ≠ 'i')).length = 25 := by decide

theorem genmove_column_labels_length (sz : Nat) (h : sz ≤ 25) :
    (genmove_column_labels sz).length = sz := by
  unfold genmove_column_labels
  rw [List.length_take, filter_skip_i_length]
  omega

theorem move_labels_length (sz : Nat) (h : sz ≤ 26) :
    (move_labels sz).length = sz := by
  have h26 : ascii_lowercase.length = 26 := by decide
  simp [move_labels, h26]
  omega

theorem genmove_column_labels_nodup (sz : Nat) :
    (genmove_column_labels sz).Nodup := by
  have h : (ascii_lowercase.filter (fun c => c ≠ 'i')).Nodup := by decide
  exact (List.take_sublist _ _).nodup h

/-! ## Claim C1: wire-to-SGF coordinate conversion -/

/-- C1.  For every board size `sz` (at most 25, the size of the skip-`i`
alphabet), every column index `ci < sz` and every 1-based row number
`1 ≤ r ≤ sz` written as a digit string `ds`, decoding the wire token
(column letter from the skip-`i` alphabet at index `ci`, then `ds`) for
persistence yields the two-letter contiguous-alphabet pair: the contiguous
letter at index `ci` followed by the contiguous letter at index `sz - r`;
and a pass token is encoded as the empty coordinate string. -/
theorem add_move_from_genmove_return_correct
    (sz ci r : Nat) (ds : List Char)
    (hsz : sz ≤ 25) (hci : ci < sz) (hr1 : 1 ≤ r) (hr2 : r ≤ sz)
    (hds : parse_digits ds = some r) :
    add_move_from_genmove_return sz
        ⟨(genmove_column_labels sz).getD ci 'a' :: ds⟩
      = some ⟨[(move_labels sz).getD ci 'a',
               (move_labels sz).getD (sz - r) 'a']⟩ ∧
    add_move_from_genmove_return sz "pass" = some "" := by
  have hcl : ci < (genmove_column_labels sz).length := by
    rw [genmove_column_labels_length sz hsz]; exact hci
  have hll : (move_labels sz).length = sz := move_labels_length sz (by omega)
  have hl1 : ci < (move_labels sz).length := by rw [hll]; exact hci
  have hl2 : sz - r < (move_labels sz).length := by rw [hll]; omega
  have hd : ds ≠ [] ∧ ds.all Char.isDigit := by
    by_contra hc
    simp only [parse_digits, if_neg hc] at hds
    exact Option.noConfusion hds
  have hgetD : (genmove_column_labels sz).getD ci 'a'
      = (genmove_column_labels sz)[ci] := List.getD_eq_getElem _ _ hcl
  have hne : (⟨(genmove_column_labels sz).getD ci 'a' :: ds⟩ : String) ≠ "pass" := by
    intro h
    have h2 : (genmove_column_labels sz).getD ci 'a' :: ds = "pass".data :=
      congrArg String.data h
    have h2' : (genmove_column_labels sz).getD ci 'a' :: ds
        = 'p' :: ['a', 's', 's'] := h2
    have h3 : ds = ['a', 's', 's'] := (List.cons_eq_cons.mp h2').2
    rw [h3] at hd
    exact absurd hd.2 (by decide)
  have hA : pyListIndex (genmove_column_labels sz)
      ((genmove_column_labels sz).getD ci 'a') = some ci := by
    rw [hgetD]
    have hmem : (genmove_column_labels sz)[ci] ∈ genmove_column_labels sz :=
      List.getElem_mem hcl
    simp [pyListIndex, hmem,
      List.indexOf_getElem (genmove_column_labels_nodup sz) ci hcl]
  have hpyint : pyInt ds = some (Int.ofNat r) := by
    obtain ⟨hdne, hdall⟩ := hd
    cases ds with
    | nil => exact absurd rfl hdne
    | cons d ds' =>
      have hdd : d.isDigit := by
        simp only [List.all_cons, Bool.and_eq_true] at hdall
        exact hdall.1
      have hdp : d ≠ '+' := by
        intro h; rw [h] at hdd; exact absurd hdd (by decide)
      have hdm : d ≠ '-' := by
        intro h; rw [h] at hdd; exact absurd hdd (by decide)
      simp [pyInt, hdp, hdm, hds]
  have hg1 : pyGet (move_labels sz) (ci : Int)
      = some ((move_labels sz)[ci]) := by
    simp [pyGet, List.get?_eq_getElem?, List.getElem?_eq_getElem hl1]
  have hg2 : pyGet (move_labels sz) ((sz : Int) - Int.ofNat r)
      = some ((move_labels sz)[sz - r]) := by
    have e : (sz : Int) - Int.ofNat r = ((sz - r : Nat) : Int) := by
      rw [Int.ofNat_eq_coe]
      omega
    rw [e]
    simp [pyGet, List.get?_eq_getElem?, List.getElem?_eq_getElem hl2]
  refine ⟨?_, by simp [add_move_from_genmove_return]⟩
  simp only [add_move_from_genmove_return, if_neg hne, hA, hpyint, hg1, hg2]
  rw [List.getD_eq_getElem _ _ hl1, List.getD_eq_getElem _ _ hl2]

/-- Witness for C1: on a 19×19 board the wire token `q16` is persisted as
`pd`, and `pass` as the empty string. -/
theorem add_move_from_genmove_return_correct_witness :
    add_move_from_genmove_return 19 "q16" = some "pd" ∧
    add_move_from_genmove_return 19 "pass" = some "" := by
  have h := add_move_from_genmove_return_correct 19 15 16 "16".data
    (by decide) (by decide) (by decide) (by decide) (by decide)
  exact h

/-! ## Claim C2: trailing-pass trim in serialization -/

theorem end_pass_count_le (moves : List (String × String)) :
    end_pass_count moves ≤ moves.length := by
  unfold end_pass_count
  calc (moves.reverse.takeWhile (fun p => p.2 = "")).length
      ≤ moves.reverse.length := (List.takeWhile_sublist _).length_le
    _ = moves.length := List.length_reverse _

theorem drop_end_pass_count (moves : List (String × String)) :
    moves.drop (moves.length - end_pass_count moves)
      = (moves.reverse.takeWhile (fun p => p.2 = "")).reverse := by
  have hsplit : (moves.reverse.dropWhile (fun p => p.2 = "")).reverse
      ++ (moves.reverse.takeWhile (fun p => p.2 = "")).reverse = moves := by
    rw [← List.reverse_append, List.takeWhile_append_dropWhile,
      List.reverse_reverse]
  have hlen : ((moves.reverse.dropWhile (fun p => p.2 = "")).reverse).length
      = moves.length - end_pass_count moves := by
    have h1 : (moves.reverse.takeWhile (fun p => p.2 = "")).length
        + (moves.reverse.dropWhile (fun p => p.2 = "")).length
        = moves.length := by
      rw [← List.length_append, List.takeWhile_append_dropWhile,
        List.length_reverse]
    unfold end_pass_count
    rw [List.length_reverse]
    omega
  calc moves.drop (moves.length - end_pass_count moves)
      = ((moves.reverse.dropWhile (fun p => p.2 = "")).reverse
          ++ (moves.reverse.takeWhile (fun p => p.2 = "")).reverse).drop
          ((moves.reverse.dropWhile (fun p => p.2 = "")).reverse).length := by
        rw [hsplit, hlen]
    _ = (moves.reverse.takeWhile (fun p => p.2 = "")).reverse :=
        List.drop_left _ _

/-- C2.  Serialization counts the number `k` of consecutive trailing pass
moves (empty SGF coordinates); every move in the dropped tail is a pass;
if `k ≥ 2` the surviving move list is exactly the first `length - k`
moves, and if `k < 2` it is the whole list (no move removed or
reordered); and the serialized record is the root node followed by
exactly the surviving moves in order. -/
theorem join_all_data_trims_trailing_passes (s : SGFRec) :
    end_pass_count s.moves ≤ s.moves.length ∧
    (∀ p ∈ s.moves.drop (s.moves.length - end_pass_count s.moves), p.2 = "") ∧
    (2 ≤ end_pass_count s.moves →
      end_passes_removed_moves s.moves
        = s.moves.take (s.moves.length - end_pass_count s.moves)) ∧
    (end_pass_count s.moves < 2 →
      end_passes_removed_moves s.moves = s.moves) ∧
    join_all_data s
      = "(" ++ root_gameinfo_joined s
          ++ String.join ((end_passes_removed_moves s.moves).map sgf_move_text)
          ++ ")\n" := by
  refine ⟨end_pass_count_le s.moves, ?_, ?_, ?_, rfl⟩
  · intro p hp
    rw [drop_end_pass_count] at hp
    have hp2 : p ∈ s.moves.reverse.takeWhile (fun p => p.2 = "") :=
      List.mem_reverse.mp hp
    have := List.mem_takeWhile_imp hp2
    simpa using this
  · intro h2
    unfold end_passes_removed_moves
    rw [if_pos h2]
  · intro h2
    unfold end_passes_removed_moves
    rw [if_neg (by omega)]

/-- Witness for C2: a record ending in three passes keeps only the first
move; a record with a single trailing pass is kept whole. -/
theorem join_all_data_trims_trailing_passes_witness :
    end_passes_removed_moves [("b", "aa"), ("w", ""), ("b", ""), ("w", "")]
      = [("b", "aa")] ∧
    end_passes_removed_moves [("b", "aa"), ("w", "")]
      = [("b", "aa"), ("w", "")] ∧
    join_all_data { re := some "B+0.5",
                    moves := [("b", "aa"), ("w", ""), ("b", ""), ("w", "")] }
      = "(;GM[1]FF[4]CA[utf-8]SZ[19]KM[6.5]RE[B+0.5];B[aa])\n" := by
  have h1 := join_all_data_trims_trailing_passes
    { re := some "B+0.5", moves := [("b", "aa"), ("w", ""), ("b", ""), ("w", "")] }
  have h2 := join_all_data_trims_trailing_passes { moves := [("b", "aa"), ("w", "")] }
  refine ⟨?_, ?_, ?_⟩
  · have := h1.2.2.1 (by decide)
    rw [this]
    decide
  · have := h2.2.2.2.1 (by decide)
    rw [this]
  · have := h1.2.2.2.2
    rw [this]
    have := h1.2.2.1 (by decide)
    rw [this]
    decide

/-! ## Claims C4 and C8: response framing -/

theorem readLinesLoop_eof (fuel : Nat) :
    ∀ started acc, readLinesLoop fuel [] started acc = none := by
  induction fuel with
  | zero => intro started acc; rfl
  | succ n ih =>
    intro started acc
    simp only [readLinesLoop, readline]
    rw [if_neg (by decide : ¬("" : String) = "\n")]
    exact ih _ _

/-- C8 counterexample.  On a stream that is already at end-of-file (every
read yields the empty string), the framing loop never terminates — for no
amount of fuel does it produce a response — contradicting the claim that
it returns an empty response. -/
theorem read_response_lines_eof_diverges : ¬ readTerminates [] := by
  intro h
  obtain ⟨fuel, h⟩ := h
  rw [readLinesLoop_eof] at h
  simp at h

/-- C8 (amended).  Only when the stdout handle is absent (`proc.stdout is
None`) does the operation return an empty response; on a stream that is
merely at end-of-file the read loop runs forever (each read yields `""`,
which neither starts a response nor matches the `"\n"` terminator). -/
theorem read_response_lines_closed_stream (fuel : Nat) :
    read_response_lines none fuel = some [] ∧
    read_response_lines (some []) fuel = none := by
  refine ⟨rfl, ?_⟩
  unfold read_response_lines
  exact readLinesLoop_eof fuel false []

/-- Witness for C8 (amended): evaluated at fuel 5. -/
theorem read_response_lines_closed_stream_witness :
    read_response_lines none 5 = some [] ∧
    read_response_lines (some []) 5 = none :=
  read_response_lines_closed_stream 5

theorem readLinesLoop_cons (fuel : Nat) (l : String) (rest : List String)
    (started : Bool) (acc : List String) :
    readLinesLoop (fuel + 1) (l :: rest) started acc
      = (if l = "\n" then
          some (if started || pyStartsWith l "=" || pyStartsWith l "?" then
                  acc ++ [l] else acc)
        else
          readLinesLoop fuel rest
            (started || pyStartsWith l "=" || pyStartsWith l "?")
            (if started || pyStartsWith l "=" || pyStartsWith l "?" then
              acc ++ [l] else acc)) := rfl

theorem readLinesLoop_collect (body : List String) :
    ∀ rest acc, (∀ l ∈ body, l ≠ "\n") →
    readLinesLoop (body.length + 1) (body ++ "\n" :: rest) true acc
      = some (acc ++ body ++ ["\n"]) := by
  induction body with
  | nil =>
    intro rest acc _
    rw [List.nil_append, List.length_nil, readLinesLoop_cons]
    simp
  | cons b bs ih =>
    intro rest acc h
    have hb : b ≠ "\n" := h b (by simp)
    rw [show ((b :: bs : List String)).length + 1 = (bs.length + 1) + 1 by simp,
      List.cons_append, readLinesLoop_cons, if_neg hb, Bool.true_or,
      Bool.true_or, if_pos rfl,
      ih rest (acc ++ [b]) (fun l hl => h l (by simp [hl]))]
    simp

theorem readLinesLoop_noise (noise : List String) :
    ∀ input fuel,
    (∀ l ∈ noise, pyStartsWith l "=" = false ∧ pyStartsWith l "?" = false ∧
      l ≠ "\n") →
    readLinesLoop (noise.length + fuel) (noise ++ input) false []
      = readLinesLoop fuel input false [] := by
  induction noise with
  | nil => intro input fuel _; simp
  | cons a as ih =>
    intro input fuel h
    obtain ⟨h1, h2, h3⟩ := h a (by simp)
    have hlen : (a :: as).length + fuel = (as.length + fuel) + 1 := by
      simp
      omega
    rw [hlen, List.cons_append, readLinesLoop_cons, if_neg h3, h1, h2]
    simp only [Bool.or_false, Bool.false_or]
    rw [if_neg (by simp)]
    exact ih input fuel (fun l hl => h l (by simp [hl]))

/-- C4 counterexample.  Noise followed by a `=`-marker line followed by
the empty terminator line yields the marker line AND the terminator line:
the terminator, read after the response has started, is appended before
the loop breaks, so it IS included in the returned result, contradicting
the claim that the result is exactly the marker line. -/
theorem read_response_lines_keeps_terminator :
    read_response_lines (some ["noise\n", "= ok\n", "\n"]) 3
      = some ["= ok\n", "\n"] ∧
    read_response_lines (some ["noise\n", "= ok\n", "\n"]) 3
      ≠ some ["= ok\n"] := by decide

/-- C4 (amended).  The framing loop discards every line arriving before
the first line beginning with `=` or `?` (provided no noise line is the
bare empty line, which would break the loop early), then collects the
marker line and every subsequent line up to AND INCLUDING the empty
terminator line; so noise followed by a marker line, body lines, and the
empty line yields the marker line, the body lines, and the terminator
line. -/
theorem read_response_lines_framing (noise body rest : List String)
    (marker : String)
    (hnoise : ∀ l ∈ noise, pyStartsWith l "=" = false ∧
      pyStartsWith l "?" = false ∧ l ≠ "\n")
    (hmarker : pyStartsWith marker "=" = true ∨ pyStartsWith marker "?" = true)
    (hbody : ∀ l ∈ body, l ≠ "\n") :
    read_response_lines (some (noise ++ marker :: (body ++ "\n" :: rest)))
        (noise.length + (body.length + 2))
      = some (marker :: (body ++ ["\n"])) := by
  have hmne : marker ≠ "\n" := by
    intro e
    rw [e] at hmarker
    revert hmarker
    decide
  simp only [read_response_lines]
  rw [readLinesLoop_noise noise (marker :: (body ++ "\n" :: rest))
    (body.length + 2) hnoise]
  have hstep : readLinesLoop (body.length + 2)
      (marker :: (body ++ "\n" :: rest)) false []
      = readLinesLoop (body.length + 1) (body ++ "\n" :: rest) true [marker] := by
    rw [show body.length + 2 = (body.length + 1) + 1 by omega,
      readLinesLoop_cons, if_neg hmne]
    rcases hmarker with hm | hm
    · rw [hm]
      simp
    · rw [hm]
      simp
  rw [hstep, readLinesLoop_collect body rest [marker] hbody]
  simp

/-- Witness for C4 (amended): one noise line, marker `"= ok\n"`, no body
lines. -/
theorem read_response_lines_framing_witness :
    read_response_lines (some (["noise\n"] ++ "= ok\n" :: ([] ++ "\n" :: [])))
        (1 + (0 + 2))
      = some ("= ok\n" :: ([] ++ ["\n"])) := by
  refine read_response_lines_framing ["noise\n"] [] [] "= ok\n" ?_ ?_ ?_
  · intro l hl
    simp at hl
    subst hl
    refine ⟨by decide, by decide, by decide⟩
  · left; decide
  · intro l hl
    simp at hl

/-! ## World and trace lemmas for the game loop -/

theorem send_behav (w : World) (id : EngineId) (cmd : String) :
    ((send w id cmd).1).behav = w.behav := rfl

theorem send_tr_self (w : World) (id : EngineId) (cmd : String) :
    ((send w id cmd).1).tr id = w.tr id ++ [cmd] := by
  simp [send]

theorem send_tr_ne (w : World) (id : EngineId) (cmd : String) (j : EngineId)
    (h : j ≠ id) : ((send w id cmd).1).tr j = w.tr j := by
  simp [send, h]

theorem send_resp (w : World) (id : EngineId) (cmd : String) :
    (send w id cmd).2 = w.behav id (w.tr id) cmd := rfl

theorem send_command_to_engines_behav (w : World) (cmd : String)
    (ids : List EngineId) :
    (send_command_to_engines w cmd ids).behav = w.behav := by
  induction ids generalizing w with
  | nil => rfl
  | cons a as ih =>
    show (send_command_to_engines (send w a cmd).1 cmd as).behav = w.behav
    rw [ih]
    rfl

theorem setup_engines_behav (sz : Nat) (km : String) (w : World)
    (ids : List EngineId) : (setup_engines sz km w ids).behav = w.behav := by
  show (send_command_to_engines (send_command_to_engines
    (send_command_to_engines w "clear_board" ids)
    ("boardsize " ++ toString sz) ids) ("komi " ++ km) ids).behav = w.behav
  rw [send_command_to_engines_behav, send_command_to_engines_behav,
    send_command_to_engines_behav]

theorem synchronize_engine_behav (w : World) (id : EngineId)
    (hist : List (String × String)) :
    (synchronize_engine w id hist).behav = w.behav := by
  induction hist generalizing w with
  | nil => rfl
  | cons p t ih =>
    show (synchronize_engine
      (if p.2 ≠ "pass" then (send w id ("play " ++ p.1 ++ " " ++ p.2)).1 else w)
      id t).behav = w.behav
    rw [ih]
    by_cases hp : p.2 ≠ "pass"
    · rw [if_pos hp]
      rfl
    · rw [if_neg hp]

theorem setup_engines_single_tr (sz : Nat) (km : String) (w : World)
    (id : EngineId) :
    (setup_engines sz km w [id]).tr id
      = w.tr id ++ ["clear_board", "boardsize " ++ toString sz, "komi " ++ km] := by
  show ((send ((send ((send w id "clear_board").1) id
    ("boardsize " ++ toString sz)).1) id ("komi " ++ km)).1).tr id = _
  rw [send_tr_self, send_tr_self, send_tr_self]
  simp

theorem setup_engines_single_tr_ne (sz : Nat) (km : String) (w : World)
    (id j : EngineId) (h : j ≠ id) :
    (setup_engines sz km w [id]).tr j = w.tr j := by
  show ((send ((send ((send w id "clear_board").1) id
    ("boardsize " ++ toString sz)).1) id ("komi " ++ km)).1).tr j = _
  rw [send_tr_ne _ _ _ _ h, send_tr_ne _ _ _ _ h, send_tr_ne _ _ _ _ h]

theorem synchronize_engine_tr (w : World) (id : EngineId)
    (hist : List (String × String)) :
    (synchronize_engine w id hist).tr id
      = w.tr id ++ (hist.filter (fun p => p.2 ≠ "pass")).map
          (fun p => "play " ++ p.1 ++ " " ++ p.2) := by
  induction hist generalizing w with
  | nil => simp [synchronize_engine]
  | cons p t ih =>
    show (synchronize_engine
      (if p.2 ≠ "pass" then (send w id ("play " ++ p.1 ++ " " ++ p.2)).1 else w)
      id t).tr id = _
    by_cases hp : p.2 ≠ "pass"
    · rw [if_pos hp, ih, send_tr_self, List.filter_cons_of_pos (by simpa using hp)]
      simp
    · rw [if_neg hp, ih, List.filter_cons_of_neg (by simpa using hp)]

theorem synchronize_engine_tr_ne (w : World) (id : EngineId)
    (hist : List (String × String)) (j : EngineId) (h : j ≠ id) :
    (synchronize_engine w id hist).tr j = w.tr j := by
  induction hist generalizing w with
  | nil => rfl
  | cons p t ih =>
    show (synchronize_engine
      (if p.2 ≠ "pass" then (send w id ("play " ++ p.1 ++ " " ++ p.2)).1 else w)
      id t).tr j = _
    rw [ih]
    by_cases hp : p.2 ≠ "pass"
    · rw [if_pos hp, send_tr_ne _ _ _ _ h]
    · rw [if_neg hp]

/-! ## Claim C3: second consecutive pass triggers scoring -/

/-- C3.  When the turn loop sees a pass and the previous recorded move was
also a pass (`last_move_is_pass = true`), it terminates the game: it
re-runs the setup sequence (`clear_board`, `boardsize`, `komi`) on the
referee session, replays exactly the non-pass moves of the accumulated
history as individual `play` commands (the passes, including the final
one, are skipped), queries `final_score`, and sets the result to the
referee's first-line answer uppercased.  In particular (last conjunct),
two stub engines that pass from move 1 end the game after exactly 2 plies
with an empty replay to the referee and the referee's uppercased answer
as the result. -/
theorem second_pass_triggers_scoring
    (sz : Nat) (km : String) (blackId whiteId refId : EngineId)
    (fuel mn : Nat) (w w1 w4 : World) (hist : List (String × String))
    (resp1 resp2 : List String) (raw result color : String)
    (hcolor : color = (if mn % 2 = 1 then "b" else "w"))
    (hgen : send w (if mn % 2 = 1 then blackId else whiteId)
      ("genmove " ++ color) = (w1, resp1))
    (hraw : format_response_line resp1 = some raw)
    (hpass : pyLower raw = "pass")
    (hfin : send (synchronize_engine (setup_engines sz km w1 [refId]) refId
        (hist ++ [(color, "pass")])) refId "final_score" = (w4, resp2))
    (hres : format_response_line resp2 = some result) :
    turn_loop sz km blackId whiteId refId (fuel + 1) mn w hist true
      = some (w4, hist ++ [(color, "pass")], some (pyUpper result))
    ∧ w4.tr refId = w1.tr refId
        ++ ["clear_board", "boardsize " ++ toString sz, "komi " ++ km]
        ++ ((hist ++ [(color, "pass")]).filter (fun p => p.2 ≠ "pass")).map
            (fun p => "play " ++ p.1 ++ " " ++ p.2)
        ++ ["final_score"]
    ∧ (hist ++ [(color, "pass")]).filter (fun p => p.2 ≠ "pass")
        = hist.filter (fun p => p.2 ≠ "pass")
    ∧ (run_game 9 "6.5" 10 EngineId.e1 EngineId.e2 (referee_id false)
          stub_names "2026-10-12" (init_world pass_stub)).map
        (fun x => (x.1.tr EngineId.e1, x.1.tr EngineId.e2, x.2.1.re, x.2.2))
      = some (["clear_board", "boardsize 9", "komi 6.5", "genmove b",
               "clear_board", "boardsize 9", "komi 6.5", "final_score"],
              ["clear_board", "boardsize 9", "komi 6.5", "genmove w"],
              some "B+0.5", [("b", "pass"), ("w", "pass")]) := by
  subst hcolor
  have hfilter : (hist ++ [((if mn % 2 = 1 then "b" else "w"), "pass")]).filter
      (fun p => p.2 ≠ "pass") = hist.filter (fun p => p.2 ≠ "pass") := by
    rw [List.filter_append]
    simp
  have hmain : turn_loop sz km blackId whiteId refId (fuel + 1) mn w hist true
      = some (w4, hist ++ [((if mn % 2 = 1 then "b" else "w"), "pass")],
          some (pyUpper result)) := by
    simp only [turn_loop, hgen, hraw, hpass, if_true]
    simp only [hfin, hres]
    rw [if_neg (by decide : ¬("pass" : String) = "resign")]
  have htr : w4.tr refId = w1.tr refId
      ++ ["clear_board", "boardsize " ++ toString sz, "komi " ++ km]
      ++ ((hist ++ [((if mn % 2 = 1 then "b" else "w"), "pass")]).filter
          (fun p => p.2 ≠ "pass")).map (fun p => "play " ++ p.1 ++ " " ++ p.2)
      ++ ["final_score"] := by
    have h4 : w4 = (send (synchronize_engine (setup_engines sz km w1 [refId])
        refId (hist ++ [((if mn % 2 = 1 then "b" else "w"), "pass")])) refId
        "final_score").1 := by rw [hfin]
    rw [h4, send_tr_self, synchronize_engine_tr, setup_engines_single_tr]
  refine ⟨hmain, htr, hfilter, by decide⟩

/-- Witness for C3: the always-passing game, at its second ply (white
passes after black's pass), scores through the referee (engine 1). -/
theorem second_pass_triggers_scoring_witness :
    turn_loop 9 "6.5" EngineId.e1 EngineId.e2 EngineId.e1 9 2
        (send (setup_engines 9 "6.5" (init_world pass_stub)
          [EngineId.e1, EngineId.e2]) EngineId.e1 "genmove b").1
        [("b", "pass")] true
      = some ((send (synchronize_engine (setup_engines 9 "6.5"
          (send ((send (setup_engines 9 "6.5" (init_world pass_stub)
            [EngineId.e1, EngineId.e2]) EngineId.e1 "genmove b").1)
            EngineId.e2 "genmove w").1 [EngineId.e1]) EngineId.e1
          [("b", "pass"), ("w", "pass")]) EngineId.e1 "final_score").1,
          [("b", "pass"), ("w", "pass")], some "B+0.5") := by
  have h := second_pass_triggers_scoring 9 "6.5" EngineId.e1 EngineId.e2
    EngineId.e1 8 2
    (send (setup_engines 9 "6.5" (init_world pass_stub)
      [EngineId.e1, EngineId.e2]) EngineId.e1 "genmove b").1
    ((send ((send (setup_engines 9 "6.5" (init_world pass_stub)
      [EngineId.e1, EngineId.e2]) EngineId.e1 "genmove b").1)
      EngineId.e2 "genmove w").1)
    ((send (synchronize_engine (setup_engines 9 "6.5"
      (send ((send (setup_engines 9 "6.5" (init_world pass_stub)
        [EngineId.e1, EngineId.e2]) EngineId.e1 "genmove b").1)
        EngineId.e2 "genmove w").1 [EngineId.e1]) EngineId.e1
      [("b", "pass"), ("w", "pass")]) EngineId.e1 "final_score").1)
    [("b", "pass")] (["= pass\n", "\n"]) (["= B+0.5\n", "\n"])
    "pass" "B+0.5" "w" rfl rfl (by decide) (by decide) rfl (by decide)
  exact h.1

/-! ## Claim C5: letter case of relayed move tokens -/

/-- C5 counterexample.  An engine that answers `genmove` with `Q16` has
its move relayed to the opposing engine as `play b q16` — the lowercased
form — not as the uppercase `play b Q16` the claim asserts. -/
theorem relay_not_uppercase :
    (run_game 19 "6.5" 1 EngineId.e1 EngineId.e2 (referee_id false)
        stub_names "2026-10-12" (init_world (const_stub "= Q16\n"))).map
      (fun x => x.1.tr EngineId.e2)
      = some ["clear_board", "boardsize 19", "komi 6.5", "play b q16"]
    ∧ (run_game 19 "6.5" 1 EngineId.e1 EngineId.e2 (referee_id false)
        stub_names "2026-10-12" (init_world (const_stub "= Q16\n"))).map
      (fun x => x.1.tr EngineId.e2)
      ≠ some ["clear_board", "boardsize 19", "komi 6.5", "play b Q16"] := by
  decide

/-- C5 (amended).  A generated occupied-point move is relayed to the
opposing engine as `play <color> <token>` with the token *lowercased*
(`.lower()` is applied to the reply before matching and relaying),
regardless of the case the generating engine used; and the scoring replay
emits each stored (already lowercased) non-pass move verbatim as a `play`
command. -/
theorem relay_lowercased
    (sz : Nat) (km : String) (blackId whiteId refId : EngineId)
    (fuel mn : Nat) (w w1 : World) (hist : List (String × String))
    (lp : Bool) (resp1 : List String) (raw : String)
    (hgen : send w (if mn % 2 = 1 then blackId else whiteId)
      ("genmove " ++ (if mn % 2 = 1 then "b" else "w"))
      = (w1, resp1))
    (hraw : format_response_line resp1 = some raw)
    (hnr : ¬ pyLower raw = "resign") (hnp : ¬ pyLower raw = "pass") :
    turn_loop sz km blackId whiteId refId (fuel + 1) mn w hist lp
      = turn_loop sz km blackId whiteId refId fuel (mn + 1)
          (send w1 (if mn % 2 = 1 then whiteId else blackId)
            ("play " ++ (if mn % 2 = 1 then "b" else "w") ++ " "
              ++ pyLower raw)).1
          (hist ++ [((if mn % 2 = 1 then "b" else "w"), pyLower raw)]) false
    ∧ ((send w1 (if mn % 2 = 1 then whiteId else blackId)
          ("play " ++ (if mn % 2 = 1 then "b" else "w") ++ " "
            ++ pyLower raw)).1).tr (if mn % 2 = 1 then whiteId else blackId)
      = w1.tr (if mn % 2 = 1 then whiteId else blackId)
        ++ ["play " ++ (if mn % 2 = 1 then "b" else "w") ++ " " ++ pyLower raw]
    ∧ ∀ (w' : World) (id : EngineId) (h' : List (String × String)),
        (synchronize_engine w' id h').tr id
          = w'.tr id ++ (h'.filter (fun p => p.2 ≠ "pass")).map
              (fun p => "play " ++ p.1 ++ " " ++ p.2) := by
  refine ⟨?_, send_tr_self _ _ _, fun w' id h' => synchronize_engine_tr w' id h'⟩
  simp only [turn_loop, hgen, hraw]
  rw [if_neg hnr, if_neg hnp]

/-- Witness for C5 (amended): the first ply of the `Q16` game relays
`play b q16` to engine 2. -/
theorem relay_lowercased_witness :
    turn_loop 19 "6.5" EngineId.e1 EngineId.e2 EngineId.e1 1 1
        (setup_engines 19 "6.5" (init_world (const_stub "= Q16\n"))
          [EngineId.e1, EngineId.e2]) [] false
      = turn_loop 19 "6.5" EngineId.e1 EngineId.e2 EngineId.e1 0 2
          (send ((send (setup_engines 19 "6.5" (init_world (const_stub "= Q16\n"))
            [EngineId.e1, EngineId.e2]) EngineId.e1 "genmove b").1) EngineId.e2
            ("play " ++ "b" ++ " " ++ pyLower "Q16")).1
          [("b", pyLower "Q16")] false := by
  have h := relay_lowercased 19 "6.5" EngineId.e1 EngineId.e2 EngineId.e1 0 1
    (setup_engines 19 "6.5" (init_world (const_stub "= Q16\n"))
      [EngineId.e1, EngineId.e2])
    ((send (setup_engines 19 "6.5" (init_world (const_stub "= Q16\n"))
      [EngineId.e1, EngineId.e2]) EngineId.e1 "genmove b").1)
    [] false ["= Q16\n", "\n"] "Q16" rfl (by decide) (by decide) (by decide)
  exact h.1

/-! ## Claim C7: resignation -/

/-- C7.  A reply whose lowercased form is `resign` terminates the game at
once with result `W+R` when Black resigned (odd ply) and `B+R` when White
resigned (even ply), leaving the move history unchanged; and (last
conjunct) a stub engine answering `RESIGN` on move 1 produces result
`W+R` with zero recorded moves. -/
theorem resign_terminates_without_recording
    (sz : Nat) (km : String) (blackId whiteId refId : EngineId)
    (fuel mn : Nat) (w w1 : World) (hist : List (String × String))
    (lp : Bool) (resp1 : List String) (raw : String)
    (hgen : send w (if mn % 2 = 1 then blackId else whiteId)
      ("genmove " ++ (if mn % 2 = 1 then "b" else "w")) = (w1, resp1))
    (hraw : format_response_line resp1 = some raw)
    (hres : pyLower raw = "resign") :
    turn_loop sz km blackId whiteId refId (fuel + 1) mn w hist lp
      = some (w1, hist, some (if mn % 2 = 1 then "W+R" else "B+R"))
    ∧ (run_game 9 "6.5" 10 EngineId.e1 EngineId.e2 (referee_id false)
          stub_names "2026-10-12" (init_world (const_stub "= RESIGN\n"))).map
        (fun x => (x.2.1.re, x.2.1.moves, x.2.2))
      = some (some "W+R", [], []) := by
  refine ⟨?_, by decide⟩
  simp only [turn_loop, hgen, hraw, hres, if_true]
  by_cases hp : mn % 2 = 1
  · simp [hp]
  · simp [hp]

/-- Witness for C7: the first ply of the always-resigning game. -/
theorem resign_terminates_without_recording_witness :
    turn_loop 9 "6.5" EngineId.e1 EngineId.e2 EngineId.e1 10 1
        (setup_engines 9 "6.5" (init_world (const_stub "= RESIGN\n"))
          [EngineId.e1, EngineId.e2]) [] false
      = some ((send (setup_engines 9 "6.5" (init_world (const_stub "= RESIGN\n"))
          [EngineId.e1, EngineId.e2]) EngineId.e1 "genmove b").1, [],
          some "W+R") := by
  have h := resign_terminates_without_recording 9 "6.5" EngineId.e1 EngineId.e2
    EngineId.e1 9 1
    (setup_engines 9 "6.5" (init_world (const_stub "= RESIGN\n"))
      [EngineId.e1, EngineId.e2])
    ((send (setup_engines 9 "6.5" (init_world (const_stub "= RESIGN\n"))
      [EngineId.e1, EngineId.e2]) EngineId.e1 "genmove b").1)
    [] false ["= RESIGN\n", "\n"] "RESIGN" rfl (by decide) (by decide)
  exact h.1

/-! ## Claim C9: empty responses -/

/-- C9 counterexample.  Extracting the first-line token from an empty
response raises (`response_lines[0]` has no element; modelled as `none`),
and the enclosing game run aborts entirely (produces no record) rather
than failing gracefully: with an engine whose stream yields nothing, the
whole game evaluates to the propagated-exception value. -/
theorem empty_response_crashes :
    format_response_line [] = none
    ∧ (run_game 9 "6.5" 10 EngineId.e1 EngineId.e2 (referee_id false)
        stub_names "2026-10-12" (init_world dead_stub)).isNone = true :=
  ⟨rfl, by decide⟩

/-- C9 (amended).  `format_response_line` applied to an empty response
list raises an `IndexError` (modelled `none`), and the exception
propagates out of the turn loop: any loop iteration that receives an
empty response aborts the whole game rather than failing only the
enclosing command. -/
theorem empty_response_propagates
    (sz : Nat) (km : String) (blackId whiteId refId : EngineId)
    (fuel mn : Nat) (w : World) (hist : List (String × String)) (lp : Bool)
    (hw : w.behav = dead_stub) :
    format_response_line [] = none
    ∧ turn_loop sz km blackId whiteId refId (fuel + 1) mn w hist lp = none := by
  refine ⟨rfl, ?_⟩
  have hresp : (send w (if mn % 2 = 1 then blackId else whiteId)
      ("genmove " ++ (if mn % 2 = 1 then "b" else "w"))).2 = [] := by
    rw [send_resp, hw]
    rfl
  simp only [turn_loop, hresp, format_response_line]

/-- Witness for C9 (amended): a dead engine aborts the loop at once. -/
theorem empty_response_propagates_witness :
    format_response_line [] = none
    ∧ turn_loop 9 "6.5" EngineId.e1 EngineId.e2 EngineId.e1 (3 + 1) 1
        (init_world dead_stub) [] false = none :=
  empty_response_propagates 9 "6.5" EngineId.e1 EngineId.e2 EngineId.e1 3 1
    (init_world dead_stub) [] false rfl

/-! ## Claim C6: ply-budget exhaustion gives result "Void" -/

theorem movesFrom_length (t : String) :
    ∀ fuel mn, (movesFrom t fuel mn).length = fuel := by
  intro fuel
  induction fuel with
  | zero => intro mn; rfl
  | succ n ih =>
    intro mn
    show (movesFrom t n (mn + 1)).length + 1 = n + 1
    rw [ih]

theorem movesFrom_snd (t : String) :
    ∀ fuel mn p, p ∈ movesFrom t fuel mn → p.2 = t := by
  intro fuel
  induction fuel with
  | zero => intro mn p hp; exact absurd hp (by simp [movesFrom])
  | succ n ih =>
    intro mn p hp
    rcases (List.mem_cons.mp hp) with h | h
    · rw [h]
    · exact ih (mn + 1) p h

theorem turn_loop_all_moves
    (sz : Nat) (km : String) (blackId whiteId refId : EngineId)
    (B : EngineId → List String → String → List String) (raw t : String)
    (hB : ∀ id hc s, format_response_line (B id hc ("genmove " ++ s)) = some raw)
    (hlow : pyLower raw = t) (ht1 : ¬ t = "resign") (ht2 : ¬ t = "pass") :
    ∀ fuel mn (w : World) hist lp, w.behav = B →
    ∃ w', turn_loop sz km blackId whiteId refId fuel mn w hist lp
        = some (w', hist ++ movesFrom t fuel mn, none) ∧ w'.behav = B := by
  intro fuel
  induction fuel with
  | zero =>
    intro mn w hist lp hw
    exact ⟨w, by simp [turn_loop, movesFrom], hw⟩
  | succ n ih =>
    intro mn w hist lp hw
    have hfmt : format_response_line (send w
        (if mn % 2 = 1 then blackId else whiteId)
        ("genmove " ++ (if mn % 2 = 1 then "b" else "w"))).2 = some raw := by
      rw [send_resp, hw]
      exact hB _ _ _
    obtain ⟨w', h1, h2⟩ := ih (mn + 1)
      ((send ((send w (if mn % 2 = 1 then blackId else whiteId)
        ("genmove " ++ (if mn % 2 = 1 then "b" else "w"))).1)
        (if mn % 2 = 1 then whiteId else blackId)
        ("play " ++ (if mn % 2 = 1 then "b" else "w") ++ " " ++ t)).1)
      (hist ++ [((if mn % 2 = 1 then "b" else "w"), t)]) false hw
    refine ⟨w', ?_, h2⟩
    simp only [turn_loop, hfmt, hlow]
    rw [if_neg ht1, if_neg ht2, h1]
    rw [show movesFrom t (n + 1) mn
      = ((if mn % 2 = 1 then "b" else "w"), t) :: movesFrom t n (mn + 1) from rfl]
    simp

theorem add_moves_from_history_const (sz : Nat) (t enc : String)
    (henc : add_move_from_genmove_return sz t = some enc) :
    ∀ l : List (String × String), (∀ p ∈ l, p.2 = t) →
    add_moves_from_history sz l = some (l.map (fun p => (p.1, enc))) := by
  intro l
  induction l with
  | nil => intro _; rfl
  | cons p rest ih =>
    intro h
    have hp : p.2 = t := h p (by simp)
    have hrest := ih (fun q hq => h q (by simp [hq]))
    unfold add_moves_from_history at hrest ⊢
    rw [List.mapM_cons, hp, henc, hrest]
    rfl

/-- C6.  First conjunct: whenever the turn loop runs out of plies without
having set a result (no resignation, no mutual pass — its outcome
component is `none`), the game's result string is exactly `"Void"`, for
arbitrary engine behaviours.  Second conjunct: if every `genmove` answer
is the same occupied-coordinate token (neither a pass nor a resignation),
the ply budget is exhausted, the result is `"Void"`, and the persisted
record contains exactly `maxmoves` moves (the move history as well). -/
theorem ply_budget_exhaustion_void
    (sz : Nat) (km : String) (maxmoves : Nat) (blackId whiteId refId : EngineId)
    (names : EngineId → String) (dt : String)
    (B : EngineId → List String → String → List String)
    (raw t enc : String) (w : World)
    (hw : w.behav = B)
    (hB : ∀ id hc s, format_response_line (B id hc ("genmove " ++ s)) = some raw)
    (hlow : pyLower raw = t) (ht1 : ¬ t = "resign") (ht2 : ¬ t = "pass")
    (henc : add_move_from_genmove_return sz t = some enc) :
    (∀ (v : World) (names' : EngineId → String) (dt' : String)
      (w1 : World) (hist : List (String × String)) (m : List (String × String)),
      turn_loop sz km blackId whiteId refId maxmoves 1
          (setup_engines sz km v [blackId, whiteId]) [] false
        = some (w1, hist, none) →
      add_moves_from_history sz hist = some m →
      (run_game sz km maxmoves blackId whiteId refId names' dt' v).map
          (fun x => x.2.1.re)
        = some (some "Void"))
    ∧ (run_game sz km maxmoves blackId whiteId refId names dt w).map
        (fun x => (x.2.1.re, x.2.1.moves.length, x.2.2.length))
      = some (some "Void", maxmoves, maxmoves) := by
  constructor
  · intro v names' dt' w1 hist m hloop hm
    simp only [run_game, hloop, hm, Option.map_some]
    rfl
  · have hw0 : (setup_engines sz km w [blackId, whiteId]).behav = B := by
      rw [setup_engines_behav, hw]
    obtain ⟨w', h1, _⟩ := turn_loop_all_moves sz km blackId whiteId refId B raw t
      hB hlow ht1 ht2 maxmoves 1 (setup_engines sz km w [blackId, whiteId]) []
      false hw0
    have h2 := add_moves_from_history_const sz t enc henc
      ([] ++ movesFrom t maxmoves 1) (fun p hp => movesFrom_snd t maxmoves 1 p
        (by simpa using hp))
    simp only [run_game, h1, h2]
    simp [movesFrom_length]

/-- Witness for C6: two engines that always answer `C3` on a 9×9 board
with a 4-ply budget give result `"Void"` and a 4-move record. -/
theorem ply_budget_exhaustion_void_witness :
    (run_game 9 "6.5" 4 EngineId.e1 EngineId.e2 (referee_id false) stub_names
        "2026-10-12" (init_world (const_stub "= C3\n"))).map
      (fun x => (x.2.1.re, x.2.1.moves.length, x.2.2.length))
      = some (some "Void", 4, 4) :=
  (ply_budget_exhaustion_void 9 "6.5" 4 EngineId.e1 EngineId.e2
    (referee_id false) stub_names "2026-10-12" (const_stub "= C3\n")
    "C3" "c3" "cg" (init_world (const_stub "= C3\n")) rfl
    (fun _ _ _ => rfl) (by decide) (by decide) (by decide) (by decide)).2

/-! ## Claim C10: the referee binding -/

theorem ne_final_score_of_head (x : String) (c : Char) (l : List Char)
    (hx : x.data = c :: l) (hc : c ≠ 'f') : x ≠ "final_score" := by
  intro h
  rw [h] at hx
  have hx' : 'f' :: "inal_score".data = c :: l := hx
  exact hc (List.cons_eq_cons.mp hx').1.symm

theorem head_of_append (a s : String) (c : Char) (l : List Char)
    (ha : a.data = c :: l) : ∃ l', (a ++ s).data = c :: l' :=
  ⟨l ++ s.data, by rw [data_append, ha, List.cons_append]⟩

theorem play_cmd_ne_final_score (c1 c2 : String) :
    "play " ++ c1 ++ " " ++ c2 ≠ "final_score" := by
  obtain ⟨l1, h1⟩ := head_of_append "play " c1 'p' "lay ".data rfl
  obtain ⟨l2, h2⟩ := head_of_append _ " " 'p' l1 h1
  obtain ⟨l3, h3⟩ := head_of_append _ c2 'p' l2 h2
  exact ne_final_score_of_head _ 'p' l3 h3 (by decide)

theorem genmove_cmd_ne_final_score (s : String) :
    "genmove " ++ s ≠ "final_score" := by
  obtain ⟨l1, h1⟩ := head_of_append "genmove " s 'g' "enmove ".data rfl
  exact ne_final_score_of_head _ 'g' l1 h1 (by decide)

theorem boardsize_cmd_ne_final_score (s : String) :
    "boardsize " ++ s ≠ "final_score" := by
  obtain ⟨l1, h1⟩ := head_of_append "boardsize " s 'b' "oardsize ".data rfl
  exact ne_final_score_of_head _ 'b' l1 h1 (by decide)

theorem komi_cmd_ne_final_score (s : String) :
    "komi " ++ s ≠ "final_score" := by
  obtain ⟨l1, h1⟩ := head_of_append "komi " s 'k' "omi ".data rfl
  exact ne_final_score_of_head _ 'k' l1 h1 (by decide)

theorem fsCount_send_ne_cmd (w : World) (id : EngineId) (cmd : String)
    (j : EngineId) (hcmd : cmd ≠ "final_score") :
    fsCount ((send w id cmd).1) j = fsCount w j := by
  unfold fsCount
  by_cases hj : j = id
  · subst hj
    rw [send_tr_self, List.filter_append]
    simp [hcmd]
  · rw [send_tr_ne _ _ _ _ hj]

theorem fsCount_send_other (w : World) (id : EngineId) (cmd : String)
    (j : EngineId) (hj : j ≠ id) :
    fsCount ((send w id cmd).1) j = fsCount w j := by
  unfold fsCount
  rw [send_tr_ne _ _ _ _ hj]

theorem fsCount_send_command_to_engines (cmd : String)
    (hcmd : cmd ≠ "final_score") (ids : List EngineId) :
    ∀ (w : World) (j : EngineId),
    fsCount (send_command_to_engines w cmd ids) j = fsCount w j := by
  induction ids with
  | nil => intro w j; rfl
  | cons a as ih =>
    intro w j
    show fsCount (send_command_to_engines (send w a cmd).1 cmd as) j = _
    rw [ih, fsCount_send_ne_cmd _ _ _ _ hcmd]

theorem fsCount_setup_engines (sz : Nat) (km : String) (w : World)
    (ids : List EngineId) (j : EngineId) :
    fsCount (setup_engines sz km w ids) j = fsCount w j := by
  show fsCount (send_command_to_engines (send_command_to_engines
    (send_command_to_engines w "clear_board" ids)
    ("boardsize " ++ toString sz) ids) ("komi " ++ km) ids) j = _
  rw [fsCount_send_command_to_engines _ (komi_cmd_ne_final_score km),
    fsCount_send_command_to_engines _ (boardsize_cmd_ne_final_score _),
    fsCount_send_command_to_engines _ (by decide)]

theorem fsCount_synchronize_engine (id : EngineId)
    (hist : List (String × String)) :
    ∀ (w : World) (j : EngineId),
    fsCount (synchronize_engine w id hist) j = fsCount w j := by
  induction hist with
  | nil => intro w j; rfl
  | cons p t ih =>
    intro w j
    show fsCount (synchronize_engine
      (if p.2 ≠ "pass" then (send w id ("play " ++ p.1 ++ " " ++ p.2)).1 else w)
      id t) j = _
    rw [ih]
    by_cases hp : p.2 ≠ "pass"
    · rw [if_pos hp, fsCount_send_ne_cmd _ _ _ _ (play_cmd_ne_final_score _ _)]
    · rw [if_neg hp]

theorem fsCount_turn_loop (sz : Nat) (km : String)
    (blackId whiteId refId : EngineId) (j : EngineId) (hj : j ≠ refId) :
    ∀ fuel mn (w : World) hist lp res,
    turn_loop sz km blackId whiteId refId fuel mn w hist lp = some res →
    fsCount res.1 j = fsCount w j := by
  intro fuel
  induction fuel with
  | zero =>
    intro mn w hist lp res h
    have h' : (w, hist, (none : Option String)) = res := Option.some.inj h
    rw [← h']
  | succ n ih =>
    intro mn w hist lp res h
    simp only [turn_loop] at h
    have hgen : fsCount ((send w (if mn % 2 = 1 then blackId else whiteId)
        ("genmove " ++ (if mn % 2 = 1 then "b" else "w"))).1) j = fsCount w j :=
      fsCount_send_ne_cmd _ _ _ _ (genmove_cmd_ne_final_score _)
    split at h
    · exact absurd h (by simp)
    · split at h
      · have h' := Option.some.inj h
        rw [← h']
        exact hgen
      · split at h
        · split at h
          · split at h
            · exact absurd h (by simp)
            · have h' := Option.some.inj h
              rw [← h']
              rw [fsCount_send_other _ _ _ _ hj,
                fsCount_synchronize_engine _ _ _ _,
                fsCount_setup_engines _ _ _ _ _, hgen]
          · rw [ih _ _ _ _ _ h, hgen]
        · rw [ih _ _ _ _ _ h,
            fsCount_send_ne_cmd _ _ _ _ (play_cmd_ne_final_score _ _), hgen]

theorem fsCount_run_game (sz : Nat) (km : String) (maxmoves : Nat)
    (blackId whiteId refId : EngineId) (names : EngineId → String)
    (dt : String) (w : World) (j : EngineId) (hj : j ≠ refId) :
    ∀ res, run_game sz km maxmoves blackId whiteId refId names dt w = some res →
    fsCount res.1 j = fsCount w j := by
  intro res h
  simp only [run_game] at h
  cases hloop : turn_loop sz km blackId whiteId refId maxmoves 1
      (setup_engines sz km w [blackId, whiteId]) [] false with
  | none =>
    simp only [hloop] at h
    exact Option.noConfusion h
  | some trip =>
    obtain ⟨w1, hist, reOpt⟩ := trip
    simp only [hloop] at h
    cases hmoves : add_moves_from_history sz hist with
    | none =>
      simp only [hmoves] at h
      exact Option.noConfusion h
    | some sgfMoves =>
      simp only [hmoves] at h
      have h' := Option.some.inj h
      rw [← h']
      show fsCount w1 j = fsCount w j
      rw [fsCount_turn_loop sz km blackId whiteId refId j hj _ _ _ _ _ _ hloop,
        fsCount_setup_engines]

theorem fsCount_match_loop (sz : Nat) (km : String) (maxmoves : Nat)
    (refId : EngineId) (alternate : Bool) (names : EngineId → String)
    (dt : String) (j : EngineId) (hj : j ≠ refId) :
    ∀ g blackId whiteId (w : World) res,
    match_loop sz km maxmoves refId alternate names dt g blackId whiteId w
      = some res →
    fsCount res.1 j = fsCount w j := by
  intro g
  induction g with
  | zero =>
    intro b wh w res h
    have h' : ((w, []) : World × List SGFRec) = res := Option.some.inj h
    rw [← h']
  | succ n ih =>
    intro b wh w res h
    simp only [match_loop] at h
    cases hrun : run_game sz km maxmoves b wh refId names dt w with
    | none =>
      simp only [hrun] at h
      exact Option.noConfusion h
    | some x =>
      obtain ⟨w1, sgf, hist⟩ := x
      simp only [hrun] at h
      cases hrec : match_loop sz km maxmoves refId alternate names dt n
          (if alternate then (wh, b) else (b, wh)).1
          (if alternate then (wh, b) else (b, wh)).2 w1 with
      | none =>
        simp only [hrec] at h
        exact Option.noConfusion h
      | some y =>
        obtain ⟨w2, sgfs⟩ := y
        simp only [hrec] at h
        have h' := Option.some.inj h
        rw [← h']
        show fsCount w2 j = fsCount w j
        rw [ih _ _ _ _ hrec,
          fsCount_run_game sz km maxmoves b wh refId names dt w j hj _ hrun]

/-- C10.  Without a configured referee program, the referee session is
bound to the first engine (the one launched from the black command); this
binding never changes across games even in alternate-sides mode: over any
whole match the second engine receives no `final_score` query at all,
while in the concrete two-game alternating always-pass match the first
engine receives both games' `final_score` queries (and, by
`second_pass_triggers_scoring`, the whole scoring block goes to the same
session as that query). -/
theorem referee_binding_never_changes :
    referee_id false = EngineId.e1
    ∧ (∀ (sz : Nat) (km : String) (maxmoves : Nat) (alternate : Bool)
        (names : EngineId → String) (dt : String) (g : Nat)
        (blackId whiteId : EngineId) (w : World),
        (match_loop sz km maxmoves (referee_id false) alternate names dt g
            blackId whiteId w).elim True
          (fun res => fsCount res.1 EngineId.e2 = fsCount w EngineId.e2))
    ∧ (match_loop 9 "6.5" 10 (referee_id false) true stub_names "2026-10-12" 2
          EngineId.e1 EngineId.e2 (init_world pass_stub)).map
        (fun res => (fsCount res.1 EngineId.e1, fsCount res.1 EngineId.e2))
      = some (2, 0) := by
  refine ⟨rfl, ?_, by decide⟩
  intro sz km maxmoves alternate names dt g blackId whiteId w
  cases hm : match_loop sz km maxmoves (referee_id false) alternate names dt g
      blackId whiteId w with
  | none => trivial
  | some res =>
    exact fsCount_match_loop sz km maxmoves (referee_id false) alternate names
      dt EngineId.e2 (by decide) g blackId whiteId w res hm

/-- Witness for C10: the invariant instantiated on a one-game match. -/
theorem referee_binding_never_changes_witness :
    (match_loop 9 "6.5" 10 (referee_id false) false stub_names "2026-10-12" 1
        EngineId.e1 EngineId.e2 (init_world pass_stub)).elim True
      (fun res => fsCount res.1 EngineId.e2
        = fsCount (init_world pass_stub) EngineId.e2) :=
  referee_binding_never_changes.2.1 9 "6.5" 10 false stub_names "2026-10-12" 1
    EngineId.e1 EngineId.e2 (init_world pass_stub)

end Twogtp
